import Mathlib

/-!
Verification development for the realtime-translation server
(`src/server.js`, second revision: room-passcode gating, SSE pub/sub
channels, multi-target-language fan-out, usage/cost accounting).

The JavaScript handlers and helpers are embedded shallowly: external
HTTP services (transcription, chat completions, speech synthesis) are
oracles passed in as function parameters; the module-level mutable maps
(`roomPasscodes`, `subscribers`) and the `sessionUsage` accumulator are
carried in an explicit `ServerState`; each handler returns its response,
the successor state, and a log of the external service calls it made.
JavaScript strings are modelled by `String`, with character-level
reimplementations of `trim`, `toLowerCase`, `split(',')` and
`includes` so that every definition evaluates inside the kernel.
-/

set_option maxRecDepth 8192

deriving instance DecidableEq for Except

namespace RT

/-- Characters treated as whitespace by the JavaScript `trim` used here
(space, tab, newline, carriage return, vertical tab, form feed). -/
def isJsSpace (c : Char) : Bool :=
  c = ' ' || c = '\t' || c = '\n' || c = '\r' || c = '\x0b' || c = '\x0c'

/-- JavaScript `String.prototype.trim`: drop leading and trailing whitespace. -/
def jsTrim (s : String) : String :=
  ⟨((s.data.dropWhile isJsSpace).reverse.dropWhile isJsSpace).reverse⟩

/-- JavaScript `String.prototype.toLowerCase` (ASCII range, which is all
the server compares). -/
def jsToLower (s : String) : String :=
  ⟨s.data.map Char.toLower⟩

/-- Helper for `splitComma`: accumulate the current field (reversed). -/
def splitCommaAux : List Char → List Char → List String
  | [], acc => [⟨acc.reverse⟩]
  | c :: rest, acc =>
    if c = ',' then ⟨acc.reverse⟩ :: splitCommaAux rest []
    else splitCommaAux rest (c :: acc)

/-- JavaScript `s.split(',')`: `""` yields `[""]`, empty fields are kept. -/
def splitComma (s : String) : List String :=
  splitCommaAux s.data []

/-- `startsWithChars l sub`: `sub` is an initial segment of `l`. -/
def startsWithChars : List Char → List Char → Bool
  | _, [] => true
  | [], _ :: _ => false
  | c :: cs, d :: ds => c = d && startsWithChars cs ds

/-- `charsInclude l sub`: `sub` occurs contiguously somewhere in `l`. -/
def charsInclude : List Char → List Char → Bool
  | [], sub => sub.isEmpty
  | c :: rest, sub => startsWithChars (c :: rest) sub || charsInclude rest sub

/-- JavaScript `s.includes(sub)`. -/
def strIncludes (s sub : String) : Bool :=
  charsInclude s.data sub.data

/-- JavaScript `Array.prototype.join(' ')`. -/
def joinSpace : List String → String
  | [] => ""
  | [s] => s
  | s :: rest => s ++ " " ++ joinSpace rest

/-- JavaScript `x || dflt` on an optional string: `null`/`undefined` and
`""` are falsy. -/
def jsOr (x : Option String) (dflt : String) : String :=
  match x with
  | none => dflt
  | some s => if s = "" then dflt else s

/-- First-match association-list lookup, modelling `Map.prototype.get`
(`none` plays the role of `undefined`). -/
def alistGet {α : Type} : List (String × α) → String → Option α
  | [], _ => none
  | (k, v) :: rest, key => if k = key then some v else alistGet rest key

/-- `Map.prototype.set`: replace the binding of `k` if present
(insertion position kept), otherwise append a new binding. -/
def mapSet {α : Type} (k : String) (v : α) : List (String × α) → List (String × α)
  | [] => [(k, v)]
  | (k', v') :: rest => if k' = k then (k, v) :: rest else (k', v') :: mapSet k v rest

/-- `Array.from(new Set(xs))`: deduplicate keeping first occurrences in
insertion order. `seen` accumulates the elements already emitted. -/
def jsSetDedupAux (seen : List String) : List String → List String
  | [] => []
  | x :: xs =>
    if x ∈ seen then jsSetDedupAux seen xs
    else x :: jsSetDedupAux (x :: seen) xs

/-- `Array.from(new Set(xs))` with an empty starting set. -/
def jsSetDedup (l : List String) : List String :=
  jsSetDedupAux [] l

/-! ## Data model -/

/-- The module-level `sessionUsage` accumulator
(`{ prompt_tokens, completion_tokens, total_tokens }`). -/
structure Usage where
  prompt_tokens : Nat
  completion_tokens : Nat
  total_tokens : Nat
deriving DecidableEq

/-- Pointwise addition of usage counters, as performed by the
`sessionUsage.x += usage.x || 0` statements in `tryTranslate`. -/
def addUsage (u v : Usage) : Usage :=
  ⟨u.prompt_tokens + v.prompt_tokens,
   u.completion_tokens + v.completion_tokens,
   u.total_tokens + v.total_tokens⟩

/-- One chat message (`{ role, content }`). -/
structure Msg where
  role : String
  content : String
deriving DecidableEq

/-- The part of an OpenAI chat-completions response body the server reads:
`completion.choices?.[0]?.message?.content` (absent fields collapse to
`none`) and `completion.usage`. -/
structure ChatCompletion where
  content : Option String
  usage : Option Usage
deriving DecidableEq

/-- `completion.choices?.[0]?.message?.content?.trim() || ''`. -/
def extractContent (c : ChatCompletion) : String :=
  jsTrim (c.content.getD "")

/-- An event written to an SSE listener: either the initial
`{ type: 'ready', channel }` or a `{ type: 'translation', ... }`
payload (the JSON serialisation is injective on these shapes, so the
structured value stands for the serialised line). -/
inductive Event
  | ready (channel : String)
  | translation (room language transcript translation : String)
      (audioBase64 : Option String)
deriving DecidableEq

/-- Module-level mutable state of the server process: the two `Map`s,
the usage accumulator, plus bookkeeping for the connection model.
`deliveries` records every successful `res.write` as
(listener id, event); `broken` is the set of listeners whose
connection has died, so a write to them fails (Node reports such a
failure asynchronously; it does not raise inside the loop). -/
structure ServerState where
  roomPasscodes : List (String × String)
  subscribers : List (String × List Nat)
  sessionUsage : Usage
  deliveries : List (Nat × Event)
  broken : List Nat
deriving DecidableEq

/-- Process configuration read from the environment at startup. -/
structure Config where
  apiKey : Bool
  translateModel : String

/-- Oracles for the three upstream OpenAI endpoints. `chat` serves both
the refinement and the translation calls (they hit the same
chat-completions endpoint and differ only in their messages); `tts`
maps the input text to a base64 audio string. `.error` models a non-2xx
response, which `fetchJson` and `fetchArrayBuffer` turn into a thrown
exception. -/
structure Services where
  transcribe : Except String String
  chat : List Msg → Except String ChatCompletion
  tts : String → Except String String

/-- A submit request: query parameters (absent parameter = `none`) and
the raw body bytes. -/
structure TranslateReq where
  targetLang : List String
  targetLangs : Option String
  sourceLang : Option String
  outputMode : Option String
  room : Option String
  passcode : Option String
  context : Option String
  audio : List Nat

/-- One element of the `results` array: `{ language, translation, audioBase64 }`. -/
structure LangResult where
  language : String
  translation : String
  audioBase64 : Option String
deriving DecidableEq

/-- The JSON response of the submit handler: an error object with its
HTTP status, or the success body. -/
inductive TResponse
  | error (status : Nat) (msg : String)
  | success (transcript : String) (results : List LangResult)
      (usage : Usage) (cost : ℚ) (model : String)
deriving DecidableEq

/-- An external service call made while handling a request. -/
inductive ExtCall
  | transcribe
  | chat (messages : List Msg)
  | tts (input : String)
deriving DecidableEq

/-- The subscribe handler's observable outcome: a JSON error or an open
event stream on the given channel. -/
inductive SubResponse
  | error (status : Nat) (msg : String)
  | streamOpened (channel : String)
deriving DecidableEq

/-! ## Query-parameter extraction (submit handler, lines 583-587) -/

/-- `url.searchParams.get('sourceLang') || ''`. -/
def reqSourceLang (req : TranslateReq) : String :=
  req.sourceLang.getD ""

/-- `url.searchParams.get('outputMode') || 'text'`. -/
def reqOutputMode (req : TranslateReq) : String :=
  jsOr req.outputMode "text"

/-- `url.searchParams.get('room') || 'default'` (note: not trimmed in the
submit handler). -/
def reqRoom (req : TranslateReq) : String :=
  jsOr req.room "default"

/-- `(url.searchParams.get('passcode') || '').trim()`. -/
def reqPasscode (req : TranslateReq) : String :=
  jsTrim (req.passcode.getD "")

/-- `url.searchParams.get('context') || ''`. -/
def reqContext (req : TranslateReq) : String :=
  req.context.getD ""

/-- `outputMode === 'audio' || outputMode === 'both'`. -/
def wantsAudio (req : TranslateReq) : Bool :=
  reqOutputMode req = "audio" || reqOutputMode req = "both"

/-- `normalizeTargetLanguageLabel` (lines 308-313). -/
def normalizeTargetLanguageLabel (language : String) : String :=
  if strIncludes (jsToLower language) "cantonese" then
    "Cantonese (Traditional Chinese, Cantonese phrasing)"
  else if strIncludes (jsToLower language) "mandarin" then
    "Mandarin Chinese (Simplified Chinese, Mainland usage)"
  else language

/-- `parseTargetLanguages` (lines 566-574): repeated `targetLang`
parameters each split on commas, plus the comma-separated `targetLangs`
parameter; entries trimmed, empty entries dropped; deduplicated via
`Array.from(new Set(...))`; `['English']` when nothing remains. -/
def parseTargetLanguages (targetLangRepeats : List String)
    (targetLangsParam : Option String) : List String :=
  let langsFromRepeats := (targetLangRepeats.map splitComma).flatten
  let langsFromList := splitComma (targetLangsParam.getD "")
  let all := ((langsFromRepeats ++ langsFromList).map jsTrim).filter (fun v => v ≠ "")
  if all.isEmpty then ["English"] else jsSetDedup all

/-- `channelName` (lines 563-564):
`${room || 'default'}:${(language || '').toLowerCase() || 'unknown'}`. -/
def channelName (room language : String) : String :=
  (if room = "" then "default" else room) ++ ":" ++
    (if jsToLower language = "" then "unknown" else jsToLower language)

/-! ## Channel broadcaster (lines 502-524) -/

/-- `addSubscriber` (lines 505-508): `Map`-of-`Set` insertion. -/
def addSubscriber (channel : String) (listener : Nat)
    (subs : List (String × List Nat)) : List (String × List Nat) :=
  match alistGet subs channel with
  | none => mapSet channel [listener] subs
  | some set =>
    mapSet channel (if listener ∈ set then set else set ++ [listener]) subs

/-- `removeSubscriber` (lines 510-515): delete the listener from the
channel set; drop the channel entry when the set becomes empty. -/
def removeSubscriber (channel : String) (listener : Nat)
    (subs : List (String × List Nat)) : List (String × List Nat) :=
  match alistGet subs channel with
  | none => subs
  | some set =>
    let set' := set.filter (fun l => l ≠ listener)
    if set'.isEmpty then subs.filter (fun e => e.1 ≠ channel)
    else mapSet channel set' subs

/-- `broadcast` (lines 517-524): no channel entry means no-op; otherwise
one `res.write` per registered listener, in registration order. The
loop has no error handling and never touches `subscribers`; a write to
a dead (`broken`) listener simply fails to deliver. -/
def broadcast (channel : String) (payload : Event) (st : ServerState) :
    ServerState :=
  match alistGet st.subscribers channel with
  | none => st
  | some set =>
    { st with deliveries :=
        st.deliveries ++
          (set.filter (fun l => !st.broken.contains l)).map (fun l => (l, payload)) }

/-! ## Subscribe handler (lines 526-561) -/

/-- `(url.searchParams.get('room') || '').trim() || 'default'`
(the subscribe handler, unlike the submit handler, trims the room). -/
def subRoom (roomP : Option String) : String :=
  if jsTrim (roomP.getD "") = "" then "default" else jsTrim (roomP.getD "")

/-- `handleSubscribeRequest` (lines 526-561). The keep-alive interval
timer is real time and is not modelled; the initial `ready` write is
recorded like any other delivery. -/
def handleSubscribeRequest (st : ServerState) (channelP roomP passcodeP : Option String)
    (listener : Nat) : SubResponse × ServerState :=
  let channel := channelP.getD ""
  let passcode := jsTrim (passcodeP.getD "")
  if channel = "" then (.error 400 "Missing channel query param", st)
  else if (alistGet st.roomPasscodes (subRoom roomP)).getD "" ≠ "" ∧
          (alistGet st.roomPasscodes (subRoom roomP)).getD "" ≠ passcode then
    (.error 403 "Invalid passcode", st)
  else
    (.streamOpened channel,
     { st with
        subscribers := addSubscriber channel listener st.subscribers,
        deliveries := st.deliveries ++
          (if st.broken.contains listener then [] else [(listener, .ready channel)]) })

/-- `true` exactly when the subscribe handler opened a stream. -/
def subAccepted : SubResponse → Bool
  | .streamOpened _ => true
  | .error _ _ => false

/-! ## Usage accounting (lines 274-278, 709-726) -/

/-- `OPENAI_PRICING` (lines 274-278): USD per 1K tokens,
(input rate, output rate). -/
def OPENAI_PRICING : List (String × (ℚ × ℚ)) :=
  [("gpt-4o-mini", (0.00015, 0.0006)),
   ("gpt-4o-mini-tts", (0.0002, 0.0002))]

/-- `Number(cost.toFixed(6))`: round to six decimal places. -/
def toFixed6 (x : ℚ) : ℚ :=
  (round (x * 1000000) : ℤ) / 1000000

/-- `estimateCost` (lines 719-726), parameterised by the configured
translate model: unknown models fall back to `{ input: 0, output: 0 }`. -/
def estimateCost (translateModel : String) (u : Usage) : ℚ :=
  let translatePricing := (alistGet OPENAI_PRICING translateModel).getD (0, 0)
  toFixed6 ((u.prompt_tokens : ℚ) / 1000 * translatePricing.1 +
            (u.completion_tokens : ℚ) / 1000 * translatePricing.2)

/-! ## Transcript refinement (lines 390-417) -/

/-- The fixed system instruction of `refineTranscript`. -/
def refineSystemContent : String :=
  "You clean ASR transcripts. Fix obvious recognition mistakes, punctuation, and casing while preserving meaning. Do NOT add or remove sentences. Keep language same as input."

/-- The two messages sent by `refineTranscript`
(`Language: ${sourceLanguage || 'unknown / mixed'}\nTranscript:\n${rawTranscript}`). -/
def refineMessages (rawTranscript sourceLanguage : String) : List Msg :=
  [⟨"system", refineSystemContent⟩,
   ⟨"user", "Language: " ++ (if sourceLanguage = "" then "unknown / mixed" else sourceLanguage)
      ++ "\nTranscript:\n" ++ rawTranscript⟩]

/-- `refineTranscript` (lines 390-417). Returns the refined transcript
(or the propagated upstream failure) together with the log of
chat-completions calls made. A transcript with fewer than two trimmed
characters is returned as-is without any call; a present, non-empty
trimmed completion content replaces it; otherwise the raw transcript is
kept (`content?.trim() || rawTranscript`). A non-2xx upstream response
propagates as an exception. -/
def refineTranscript (chatSvc : List Msg → Except String ChatCompletion)
    (rawTranscript sourceLanguage : String) :
    Except String String × List (List Msg) :=
  if rawTranscript = "" ∨ (jsTrim rawTranscript).length < 2 then
    (.ok rawTranscript, [])
  else
    match chatSvc (refineMessages rawTranscript sourceLanguage) with
    | .error e => (.error e, [refineMessages rawTranscript sourceLanguage])
    | .ok completion =>
      let r := jsTrim (completion.content.getD "")
      (.ok (if r = "" then rawTranscript else r),
       [refineMessages rawTranscript sourceLanguage])

/-! ## Translation with single retry (lines 419-478) -/

/-- `sysParts` (lines 420-435): the base instructions plus the extra
Cantonese instructions when the (lowercased) target language contains
`cantonese`. -/
def translateSysParts (targetLanguage : String) : List String :=
  ["You are a translation engine. Translate user text to " ++ targetLanguage ++ ".",
   "Use the provided context for coherence (names, pronouns, tense).",
   "Return ONLY the translation of the new text, not the context.",
   "If the text is already in the target language, return it unchanged.",
   "Never reply with explanations, apologies, or placeholders. Never return empty output."]
  ++ (if strIncludes (jsToLower targetLanguage) "cantonese" then
       ["Write in spoken Cantonese using Traditional Chinese characters (e.g., 喺/嘅/佢/佢哋/唔/冇/咗/啦/喇/啱).",
        "Avoid Mainland Mandarin lexical choices; prefer colloquial Cantonese phrasing and particles.",
        "Do not mix Simplified Chinese; keep vocabulary natural for Cantonese listeners."]
     else [])

/-- `sysParts.join(' ')`. -/
def translateSystemContent (targetLanguage : String) : String :=
  joinSpace (translateSysParts targetLanguage)

/-- The user message of `translateText` (lines 437-448): wraps the text
with the context when a context is supplied, otherwise the bare text. -/
def translateUserMsg (text context : String) : Msg :=
  if context = "" then ⟨"user", text⟩
  else
    ⟨"user", "Context (previous transcript):\n" ++ context
      ++ "\n\nNew text to translate:\n" ++ text
      ++ "\n\nTranslate only the new text, keep consistent with context."⟩

/-- The `messages` array sent on the first translation attempt. -/
def translateMessages (text targetLanguage context : String) : List Msg :=
  [⟨"system", translateSystemContent targetLanguage⟩, translateUserMsg text context]

/-- The strengthened instruction appended to the system message before
the single retry (line 474). -/
def strengthenSuffix : String :=
  " Output must not be empty. Provide best-effort translation."

/-- `messages[0].content += strengthenSuffix`. -/
def strengthenMessages : List Msg → List Msg
  | [] => []
  | m :: rest => ⟨m.role, m.content ++ strengthenSuffix⟩ :: rest

/-- One `tryTranslate` call (lines 450-469): ask the chat service, fold
any reported usage into the session accumulator, and extract the
trimmed content (empty string when content is missing). -/
def tryTranslate (chatSvc : List Msg → Except String ChatCompletion)
    (messages : List Msg) (sessionUsage : Usage) :
    Except String (String × Usage) :=
  match chatSvc messages with
  | .error e => .error e
  | .ok completion =>
    .ok (extractContent completion,
         match completion.usage with
         | some v => addUsage sessionUsage v
         | none => sessionUsage)

/-- `translateText` (lines 419-478): first attempt; if its trimmed
result is empty, strengthen the system message and retry exactly once;
return the second result as-is (possibly empty). The third component is
the log of chat-completions calls actually made. -/
def translateText (chatSvc : List Msg → Except String ChatCompletion)
    (text targetLanguage context : String) (sessionUsage : Usage) :
    Except String (String × Usage) × List (List Msg) :=
  let messages := translateMessages text targetLanguage context
  match tryTranslate chatSvc messages sessionUsage with
  | .error e => (.error e, [messages])
  | .ok (result, u1) =>
    if result = "" then
      let messages2 := strengthenMessages messages
      match tryTranslate chatSvc messages2 u1 with
      | .error e => (.error e, [messages, messages2])
      | .ok (result2, u2) => (.ok (result2, u2), [messages, messages2])
    else (.ok (result, u1), [messages])

/-! ## Submit handler (lines 576-648) -/

/-- Outcome of the passcode check-and-bind sequence (lines 589-599). -/
inductive Gate
  | missing
  | mismatch
  | ok (rooms : List (String × String))
deriving DecidableEq

/-- Lines 589-599 of the submit handler: reject an empty (trimmed)
passcode; reject when the room has a truthy bound passcode different
from the presented one (`existing && existing !== passcode`); otherwise
(re)bind the presented passcode to the room (`roomPasscodes.set`). -/
def passcodeGate (rooms : List (String × String)) (room passcode : String) : Gate :=
  if passcode = "" then .missing
  else if (alistGet rooms room).getD "" ≠ "" ∧
          (alistGet rooms room).getD "" ≠ passcode then .mismatch
  else .ok (mapSet room passcode rooms)

/-- One language branch of the `Promise.all` fan-out (lines 614-632):
normalise the language label, translate (with the single-retry policy),
optionally synthesize speech, build the result object, and broadcast it
on the per-(room, language) channel. A thrown upstream error rejects
the branch; earlier side effects (usage accumulation, broadcasts of
other branches) remain. -/
def runBranch (svcs : Services) (room transcript context : String)
    (audioWanted : Bool) (language : String) (st : ServerState) :
    Except String LangResult × ServerState × List ExtCall :=
  match translateText svcs.chat transcript (normalizeTargetLanguageLabel language)
      context st.sessionUsage with
  | (.error e, log) => (.error e, st, log.map ExtCall.chat)
  | (.ok (translation, u'), log) =>
    let st1 := { st with sessionUsage := u' }
    if audioWanted then
      match svcs.tts translation with
      | .error e => (.error e, st1, log.map ExtCall.chat ++ [.tts translation])
      | .ok b64 =>
        (.ok ⟨language, translation, some b64⟩,
         broadcast (channelName room language)
           (.translation room language transcript translation (some b64)) st1,
         log.map ExtCall.chat ++ [.tts translation])
    else
      (.ok ⟨language, translation, none⟩,
       broadcast (channelName room language)
         (.translation room language transcript translation none) st1,
       log.map ExtCall.chat)

/-- The whole fan-out: every branch runs to its own completion or
failure (a `Promise.all` rejection does not cancel the other branches),
modelled as a deterministic left-to-right schedule of the concurrent
branches. -/
def runBranches (svcs : Services) (room transcript context : String)
    (audioWanted : Bool) (languages : List String) (st : ServerState) :
    List (Except String LangResult) × ServerState × List ExtCall :=
  match languages with
  | [] => ([], st, [])
  | language :: rest =>
    match runBranch svcs room transcript context audioWanted language st with
    | (r, st1, calls1) =>
      match runBranches svcs room transcript context audioWanted rest st1 with
      | (rs, st2, calls2) => (r :: rs, st2, calls1 ++ calls2)

/-- The error `Promise.all` rejects with: the first failing branch. -/
def firstError : List (Except String LangResult) → Option String
  | [] => none
  | .error e :: _ => some e
  | .ok _ :: rest => firstError rest

/-- The resolved array when no branch failed. -/
def collectOks (l : List (Except String LangResult)) : List LangResult :=
  l.filterMap (fun r => match r with | .ok v => some v | .error _ => none)

/-- The submit handler from the transcription call onward
(lines 609-643), reached only after the passcode gate and the
audio-presence check passed. -/
def translatePipeline (cfg : Config) (svcs : Services) (st : ServerState)
    (req : TranslateReq) : TResponse × ServerState × List ExtCall :=
  match svcs.transcribe with
  | .error e => (.error 500 e, st, [.transcribe])
  | .ok transcriptRaw =>
    match refineTranscript svcs.chat transcriptRaw (reqSourceLang req) with
    | (.error e, rlog) => (.error 500 e, st, .transcribe :: rlog.map ExtCall.chat)
    | (.ok transcript, rlog) =>
      match runBranches svcs (reqRoom req) transcript (reqContext req)
          (wantsAudio req) (parseTargetLanguages req.targetLang req.targetLangs) st with
      | (branchResults, st2, fanCalls) =>
        match firstError branchResults with
        | some e =>
          (.error 500 e, st2, (.transcribe :: rlog.map ExtCall.chat) ++ fanCalls)
        | none =>
          (.success transcript (collectOks branchResults) st2.sessionUsage
             (estimateCost cfg.translateModel st2.sessionUsage) cfg.translateModel,
           st2, (.transcribe :: rlog.map ExtCall.chat) ++ fanCalls)

/-- `handleTranslateRequest` (lines 576-648): credential precondition,
passcode gate (which mutates the room registry before the body is
read), audio-presence validation, then the pipeline. The third
component logs every external service call made. -/
def handleTranslateRequest (cfg : Config) (svcs : Services) (st : ServerState)
    (req : TranslateReq) : TResponse × ServerState × List ExtCall :=
  if cfg.apiKey = false then (.error 500 "Missing OPENAI_API_KEY", st, [])
  else
    match passcodeGate st.roomPasscodes (reqRoom req) (reqPasscode req) with
    | .missing => (.error 400 "Missing passcode", st, [])
    | .mismatch => (.error 403 "Room passcode mismatch", st, [])
    | .ok rooms1 =>
      if req.audio.isEmpty then
        (.error 400 "No audio content received.", { st with roomPasscodes := rooms1 }, [])
      else translatePipeline cfg svcs { st with roomPasscodes := rooms1 } req

/-! ## Response accessors (used to state concrete facts without forcing
the rational cost field, which the kernel cannot normalise) -/

/-- The HTTP status of a submit response. -/
def respStatus : TResponse → Nat
  | .error s _ => s
  | .success _ _ _ _ _ => 200

/-- The error message, when the response is an error. -/
def respErrorMsg : TResponse → Option String
  | .error _ m => some m
  | .success _ _ _ _ _ => none

/-- The `results` array, when the response is a success. -/
def respResults : TResponse → Option (List LangResult)
  | .error _ _ => none
  | .success _ rs _ _ _ => some rs

/-- The `transcript` field, when the response is a success. -/
def respTranscript : TResponse → Option String
  | .error _ _ => none
  | .success t _ _ _ _ => some t

/-! ## Lemmas about the map and dedup helpers -/

theorem alistGet_mapSet_self {α : Type} (m : List (String × α)) (k : String) (v : α) :
    alistGet (mapSet k v m) k = some v := by
  induction m with
  | nil => simp [mapSet, alistGet]
  | cons e rest ih =>
    obtain ⟨k', v'⟩ := e
    by_cases h : k' = k
    · simp [mapSet, h, alistGet]
    · simp [mapSet, h, alistGet, ih]

theorem mapSet_eq_self {α : Type} (m : List (String × α)) (k : String) (v : α)
    (h : alistGet m k = some v) : mapSet k v m = m := by
  induction m with
  | nil => simp [alistGet] at h
  | cons e rest ih =>
    obtain ⟨k', v'⟩ := e
    by_cases hk : k' = k
    · subst hk
      simp [alistGet] at h
      simp [mapSet, h]
    · simp [alistGet, hk] at h
      simp [mapSet, hk, ih h]

theorem jsSetDedupAux_spec (l : List String) :
    ∀ seen, (jsSetDedupAux seen l).Nodup ∧
      ∀ a ∈ jsSetDedupAux seen l, a ∉ seen := by
  induction l with
  | nil => intro seen; simp [jsSetDedupAux]
  | cons x xs ih =>
    intro seen
    by_cases hx : x ∈ seen
    · simpa [jsSetDedupAux, hx] using ih seen
    · have h2 := ih (x :: seen)
      refine ⟨?_, ?_⟩
      · simp only [jsSetDedupAux, hx, if_false, List.nodup_cons]
        exact ⟨fun hmem => (h2.2 x hmem) (List.mem_cons_self x seen), h2.1⟩
      · intro a ha
        simp only [jsSetDedupAux, hx, if_false, List.mem_cons] at ha
        rcases ha with rfl | ha
        · exact hx
        · intro hseen
          exact (h2.2 a ha) (List.mem_cons_of_mem x hseen)

theorem jsSetDedup_nodup (l : List String) : (jsSetDedup l).Nodup :=
  (jsSetDedupAux_spec l []).1

theorem jsSetDedup_ne_nil (l : List String) (h : l.isEmpty = false) :
    jsSetDedup l ≠ [] := by
  cases l with
  | nil => simp [List.isEmpty] at h
  | cons x xs => simp [jsSetDedup, jsSetDedupAux]

/-- The deduplicated target-language list never contains duplicates. -/
theorem parseTargetLanguages_nodup (reps : List String) (listP : Option String) :
    (parseTargetLanguages reps listP).Nodup := by
  simp only [parseTargetLanguages]
  split
  · simp
  · exact jsSetDedup_nodup _

/-- At least one target language is always requested. -/
theorem parseTargetLanguages_ne_nil (reps : List String) (listP : Option String) :
    parseTargetLanguages reps listP ≠ [] := by
  simp only [parseTargetLanguages]
  split
  · simp
  · rename_i h
    exact jsSetDedup_ne_nil _ (by simpa using h)

/-! ## State-preservation lemmas for the fan-out -/

theorem broadcast_roomPasscodes (channel : String) (payload : Event) (st : ServerState) :
    (broadcast channel payload st).roomPasscodes = st.roomPasscodes := by
  unfold broadcast
  cases alistGet st.subscribers channel <;> rfl

theorem broadcast_subscribers (channel : String) (payload : Event) (st : ServerState) :
    (broadcast channel payload st).subscribers = st.subscribers := by
  unfold broadcast
  cases alistGet st.subscribers channel <;> rfl

theorem runBranch_roomPasscodes (svcs : Services) (room transcript context : String)
    (audioWanted : Bool) (language : String) (st : ServerState) :
    ((runBranch svcs room transcript context audioWanted language st).2.1).roomPasscodes
      = st.roomPasscodes := by
  unfold runBranch
  split
  · rfl
  · split
    · split
      · rfl
      · simp [broadcast_roomPasscodes]
    · simp [broadcast_roomPasscodes]

theorem runBranches_roomPasscodes (svcs : Services) (room transcript context : String)
    (audioWanted : Bool) (languages : List String) (st : ServerState) :
    ((runBranches svcs room transcript context audioWanted languages st).2.1).roomPasscodes
      = st.roomPasscodes := by
  induction languages generalizing st with
  | nil => rfl
  | cons language rest ih =>
    unfold runBranches
    rcases hb : runBranch svcs room transcript context audioWanted language st with
      ⟨r, st1, calls1⟩
    have h1 : st1.roomPasscodes = st.roomPasscodes := by
      have := runBranch_roomPasscodes svcs room transcript context audioWanted language st
      rw [hb] at this
      exact this
    rcases hr : runBranches svcs room transcript context audioWanted rest st1 with
      ⟨rs, st2, calls2⟩
    have h2 : st2.roomPasscodes = st1.roomPasscodes := by
      have := ih st1
      rw [hr] at this
      exact this
    simp [hb, hr, h2, h1]

theorem translatePipeline_roomPasscodes (cfg : Config) (svcs : Services)
    (st : ServerState) (req : TranslateReq) :
    ((translatePipeline cfg svcs st req).2.1).roomPasscodes = st.roomPasscodes := by
  unfold translatePipeline
  split
  · rfl
  · split
    · rfl
    · rename_i transcript rlog heqr
      split
      rename_i branchResults st2 fanCalls heq
      have h2 : st2.roomPasscodes = st.roomPasscodes := by
        have := runBranches_roomPasscodes svcs (reqRoom req) transcript (reqContext req)
          (wantsAudio req) (parseTargetLanguages req.targetLang req.targetLangs) st
        rw [heq] at this
        exact this
      split <;> simp [h2]

/-- Every response produced past the validation steps carries status 500
or 200: the pipeline never produces the 400- or 403-class responses. -/
theorem translatePipeline_status (cfg : Config) (svcs : Services)
    (st : ServerState) (req : TranslateReq) :
    respStatus (translatePipeline cfg svcs st req).1 = 500 ∨
      respStatus (translatePipeline cfg svcs st req).1 = 200 := by
  unfold translatePipeline
  split
  · left; rfl
  · split
    · left; rfl
    · split
      split
      · left; rfl
      · right; rfl

/-- A successful branch reports the language it was asked for. -/
theorem runBranch_ok_language (svcs : Services) (room transcript context : String)
    (audioWanted : Bool) (language : String) (st : ServerState) (v : LangResult)
    (h : (runBranch svcs room transcript context audioWanted language st).1 = .ok v) :
    v.language = language := by
  unfold runBranch at h
  split at h
  · exact absurd h (by simp)
  · split at h
    · split at h
      · exact absurd h (by simp)
      · simp at h
        rw [← h]
    · simp at h
      rw [← h]

/-- When no branch failed, the fan-out yields exactly one result per
requested language, in request order. -/
theorem runBranches_languages (svcs : Services) (room transcript context : String)
    (audioWanted : Bool) (languages : List String) (st : ServerState)
    (h : firstError (runBranches svcs room transcript context audioWanted languages st).1
      = none) :
    (collectOks (runBranches svcs room transcript context audioWanted languages st).1).map
      LangResult.language = languages := by
  induction languages generalizing st with
  | nil => simp [runBranches, collectOks]
  | cons language rest ih =>
    rcases hb : runBranch svcs room transcript context audioWanted language st with
      ⟨r, st1, calls1⟩
    rcases hr : runBranches svcs room transcript context audioWanted rest st1 with
      ⟨rs, st2, calls2⟩
    have hrun : runBranches svcs room transcript context audioWanted (language :: rest) st
        = (r :: rs, st2, calls1 ++ calls2) := by
      simp [runBranches, hb, hr]
    rw [hrun] at h ⊢
    cases r with
    | error e => simp [firstError] at h
    | ok v =>
      have hv : v.language = language := by
        apply runBranch_ok_language svcs room transcript context audioWanted language st
        rw [hb]
      have hrest := ih st1
      rw [hr] at hrest
      simp only [firstError] at h
      simp only [collectOks, List.filterMap] at hrest ⊢
      simp [hv, hrest h]

/-- Tuple-equation form of `runBranches_languages`, convenient after a
`split`. -/
theorem runBranches_languages_of_eq (svcs : Services) (room transcript context : String)
    (audioWanted : Bool) (languages : List String) (st : ServerState)
    (brs : List (Except String LangResult)) (st2 : ServerState) (calls : List ExtCall)
    (heq : runBranches svcs room transcript context audioWanted languages st
      = (brs, st2, calls))
    (hfe : firstError brs = none) :
    (collectOks brs).map LangResult.language = languages := by
  have h := runBranches_languages svcs room transcript context audioWanted languages st
    (by rw [heq]; exact hfe)
  rw [heq] at h
  exact h

/-! ## Concrete fixtures used by witnesses and counterexamples -/

/-- A process with a configured API key and the default translate model. -/
def cfgA : Config := ⟨true, "gpt-4o-mini"⟩

/-- Benign services: transcription yields `hello there`, every chat call
yields `hi` with no usage block, speech synthesis yields base64 `QUJD`. -/
def svcsOk : Services :=
  ⟨.ok "hello there", fun _ => .ok ⟨some "hi", none⟩, fun _ => .ok "QUJD"⟩

/-- The freshly started process: empty registries and zero usage. -/
def st0 : ServerState := ⟨[], [], ⟨0, 0, 0⟩, [], []⟩

/-- The state after passcode `a` has been bound to room `r1`. -/
def stBound : ServerState := ⟨[("r1", "a")], [], ⟨0, 0, 0⟩, [], []⟩

/-- A first submit binding passcode `a` to room `r1`. -/
def reqBind : TranslateReq :=
  ⟨[], none, none, none, some "r1", some "a", none, [1]⟩

/-- A later submit on `r1` presenting the raw passcode `"a "` (trailing
space), a different string from the bound `"a"`. -/
def reqTrick : TranslateReq :=
  ⟨[], none, none, none, some "r1", some "a ", none, [1]⟩

/-! ## Claims -/

/-- C5: every submit request whose (trimmed) passcode is empty, whose
passcode mismatches the room's bound passcode, or whose audio payload
is empty is rejected with an error response — 400, 403, and 400
respectively — and the external-call log is empty: no transcription,
refinement, translation, or synthesis call is made on any of these
paths. -/
theorem C5_validation_rejects_without_calls (cfg : Config) (svcs : Services)
    (st : ServerState) (req : TranslateReq) (hkey : cfg.apiKey = true) :
    (reqPasscode req = "" →
      handleTranslateRequest cfg svcs st req = (.error 400 "Missing passcode", st, []))
    ∧ (∀ e, reqPasscode req ≠ "" → alistGet st.roomPasscodes (reqRoom req) = some e →
        e ≠ "" → e ≠ reqPasscode req →
        handleTranslateRequest cfg svcs st req
          = (.error 403 "Room passcode mismatch", st, []))
    ∧ (∀ rooms1, passcodeGate st.roomPasscodes (reqRoom req) (reqPasscode req) = .ok rooms1 →
        req.audio = [] →
        handleTranslateRequest cfg svcs st req
          = (.error 400 "No audio content received.",
             { st with roomPasscodes := rooms1 }, [])) := by
  refine ⟨?_, ?_, ?_⟩
  · intro hpass
    simp [handleTranslateRequest, hkey, passcodeGate, hpass]
  · intro e hpass hget hne hdiff
    simp [handleTranslateRequest, hkey, passcodeGate, hpass, hget, hne, hdiff]
  · intro rooms1 hgate haudio
    simp [handleTranslateRequest, hkey, hgate, haudio]

/-- C10: a submit request on an unbound room that presents a non-empty
passcode but an empty audio payload is rejected with the 400 validation
error, yet the passcode is bound to the room anyway (the registry is
mutated before the audio check); a later request on the same room with
a different passcode is then rejected as a 403 mismatch. -/
theorem C10_failed_validation_still_binds (cfg : Config) (svcs svcs2 : Services)
    (st : ServerState) (req req2 : TranslateReq) (hkey : cfg.apiKey = true)
    (hpass : reqPasscode req ≠ "")
    (hunbound : alistGet st.roomPasscodes (reqRoom req) = none)
    (haudio : req.audio = []) :
    handleTranslateRequest cfg svcs st req
      = (.error 400 "No audio content received.",
         { st with roomPasscodes := mapSet (reqRoom req) (reqPasscode req) st.roomPasscodes },
         [])
    ∧ (reqRoom req2 = reqRoom req → reqPasscode req2 ≠ "" →
       reqPasscode req2 ≠ reqPasscode req →
       handleTranslateRequest cfg svcs2
           { st with roomPasscodes := mapSet (reqRoom req) (reqPasscode req) st.roomPasscodes }
           req2
         = (.error 403 "Room passcode mismatch",
            { st with roomPasscodes := mapSet (reqRoom req) (reqPasscode req) st.roomPasscodes },
            [])) := by
  constructor
  · simp [handleTranslateRequest, hkey, passcodeGate, hpass, hunbound, haudio]
  · intro hroom hpass2 hdiff
    have hget : alistGet (mapSet (reqRoom req) (reqPasscode req) st.roomPasscodes)
        (reqRoom req2) = some (reqPasscode req) := by
      rw [hroom]
      exact alistGet_mapSet_self st.roomPasscodes (reqRoom req) (reqPasscode req)
    simp [handleTranslateRequest, hkey, passcodeGate, hpass2, hget, hpass,
      Ne.symm hdiff]

/-- C6: per translation branch, if the first attempt's trimmed content
is empty, exactly one retry is made, with the strengthened instruction
appended to the system message; the second attempt's result is returned
as-is (so two empty attempts yield the empty translation), and at most
two chat calls are ever made. -/
theorem C6_translate_retry_policy (chatSvc : List Msg → Except String ChatCompletion)
    (text targetLanguage context : String) (u : Usage) :
    ((translateText chatSvc text targetLanguage context u).2.length ≤ 2)
    ∧ (∀ comp, chatSvc (translateMessages text targetLanguage context) = .ok comp →
        extractContent comp ≠ "" →
        (translateText chatSvc text targetLanguage context u).2
            = [translateMessages text targetLanguage context]
          ∧ ∃ u1, (translateText chatSvc text targetLanguage context u).1
              = .ok (extractContent comp, u1))
    ∧ (∀ comp comp2, chatSvc (translateMessages text targetLanguage context) = .ok comp →
        extractContent comp = "" →
        chatSvc (strengthenMessages (translateMessages text targetLanguage context))
          = .ok comp2 →
        (translateText chatSvc text targetLanguage context u).2
            = [translateMessages text targetLanguage context,
               strengthenMessages (translateMessages text targetLanguage context)]
          ∧ ∃ u2, (translateText chatSvc text targetLanguage context u).1
              = .ok (extractContent comp2, u2))
    ∧ strengthenMessages (translateMessages text targetLanguage context)
        = ⟨"system", translateSystemContent targetLanguage ++ strengthenSuffix⟩
            :: [translateUserMsg text context] := by
  refine ⟨?_, ?_, ?_, ?_⟩
  · unfold translateText tryTranslate
    cases h1 : chatSvc (translateMessages text targetLanguage context) with
    | error e => simp [h1]
    | ok comp =>
      simp only [h1]
      split
      · cases h2 : chatSvc (strengthenMessages (translateMessages text targetLanguage context)) with
        | error e => simp [h2]
        | ok comp2 => simp [h2]
      · simp
  · intro comp hcomp hne
    simp [translateText, tryTranslate, hcomp, hne]
  · intro comp comp2 hcomp hempty hcomp2
    simp [translateText, tryTranslate, hcomp, hempty, hcomp2]
  · simp [translateMessages, strengthenMessages]

/-- C1 counterexample: binding raw passcode `a` to room `r1` via a first
submit, a later submit presenting the different raw passcode `"a "`
(trailing space) is accepted with a 200 response rather than rejected
with an authorization error, because the handler compares trimmed
passcodes. -/
theorem C1_counterexample :
    (handleTranslateRequest cfgA svcsOk st0 reqBind).2.1 = stBound
    ∧ reqBind.passcode = some "a"
    ∧ reqTrick.passcode = some "a "
    ∧ ("a " : String) ≠ "a"
    ∧ respStatus (handleTranslateRequest cfgA svcsOk stBound reqTrick).1 = 200
    ∧ respErrorMsg (handleTranslateRequest cfgA svcsOk stBound reqTrick).1 = none := by
  exact ⟨by decide, rfl, rfl, by decide, by decide, by decide⟩

/-- C1 (amended to trimmed passcodes): once the trimmed passcode P1 is
bound to room R, any submit on R presenting a passcode whose trimmed
value is non-empty and different from P1 is rejected with the 403
authorization error, with no state change and no external call; any
submit on R presenting a passcode trimming to P1 passes the gate
(leaving the binding unchanged), is never rejected as a mismatch or as
a missing passcode, and leaves the registry intact whatever else
happens. -/
theorem C1_trimmed_first_writer_wins (cfg : Config) (svcs svcs2 : Services)
    (st : ServerState) (req2 req3 : TranslateReq) (R P1 : String)
    (hkey : cfg.apiKey = true)
    (hbound : alistGet st.roomPasscodes (jsOr (some R) "default") = some (jsTrim P1))
    (hP1 : jsTrim P1 ≠ "") :
    (∀ P2, req2.room = some R → req2.passcode = some P2 → jsTrim P2 ≠ "" →
      jsTrim P2 ≠ jsTrim P1 →
      handleTranslateRequest cfg svcs st req2
        = (.error 403 "Room passcode mismatch", st, []))
    ∧ (∀ Q, req3.room = some R → req3.passcode = some Q → jsTrim Q = jsTrim P1 →
      passcodeGate st.roomPasscodes (reqRoom req3) (reqPasscode req3) = .ok st.roomPasscodes
      ∧ (handleTranslateRequest cfg svcs2 st req3).1 ≠ .error 403 "Room passcode mismatch"
      ∧ (handleTranslateRequest cfg svcs2 st req3).1 ≠ .error 400 "Missing passcode"
      ∧ ((handleTranslateRequest cfg svcs2 st req3).2.1).roomPasscodes
          = st.roomPasscodes) := by
  constructor
  · intro P2 hroom hpasscode hne hdiff
    have hroomEq : reqRoom req2 = jsOr (some R) "default" := by
      simp [reqRoom, hroom]
    have hpassEq : reqPasscode req2 = jsTrim P2 := by
      simp [reqPasscode, hpasscode]
    simp [handleTranslateRequest, hkey, passcodeGate, hroomEq, hpassEq, hbound, hP1,
      hne, Ne.symm hdiff]
  · intro Q hroom hpasscode hQ
    have hroomEq : reqRoom req3 = jsOr (some R) "default" := by
      simp [reqRoom, hroom]
    have hpassEq : reqPasscode req3 = jsTrim P1 := by
      simp [reqPasscode, hpasscode, hQ]
    have hgate : passcodeGate st.roomPasscodes (reqRoom req3) (reqPasscode req3)
        = .ok st.roomPasscodes := by
      rw [hroomEq, hpassEq]
      unfold passcodeGate
      rw [if_neg hP1, if_neg (by simp [hbound]), mapSet_eq_self _ _ _ hbound]
    have hh : handleTranslateRequest cfg svcs2 st req3
        = if req3.audio.isEmpty
          then (.error 400 "No audio content received.", st, [])
          else translatePipeline cfg svcs2 st req3 := by
      simp [handleTranslateRequest, hkey, hgate]
    refine ⟨hgate, ?_, ?_, ?_⟩
    · rw [hh]
      split
      · simp
      · intro hc
        have hs := translatePipeline_status cfg svcs2 st req3
        rw [hc] at hs
        simp [respStatus] at hs
    · rw [hh]
      split
      · simp
      · intro hc
        have hs := translatePipeline_status cfg svcs2 st req3
        rw [hc] at hs
        simp [respStatus] at hs
    · rw [hh]
      split
      · rfl
      · exact translatePipeline_roomPasscodes cfg svcs2 st req3

/-- The state with passcode `secret` bound to room `r1` and no
subscribers. -/
def stSec : ServerState := ⟨[("r1", "secret")], [], ⟨0, 0, 0⟩, [], []⟩

/-- A legitimate submit to room `r1` with its passcode, one target
language, text output. -/
def reqPub : TranslateReq :=
  ⟨["English"], none, none, none, some "r1", some "secret", none, [1]⟩

/-- C2: the subscribe handler's acceptance never depends on the channel
parameter — only on room and passcode; a subscriber citing a room with
no bound passcode is accepted on any non-empty channel; concretely, a
listener citing unbound room `r2` may subscribe to channel
`r1:english` (the channel of passcode-protected room `r1`) and then
receives `r1`'s published translation events without ever presenting
`r1`'s passcode. -/
theorem C2_subscribe_ignores_channel :
    (∀ (st : ServerState) (roomP passP : Option String) (l : Nat) (ch1 ch2 : String),
      ch1 ≠ "" → ch2 ≠ "" →
      subAccepted (handleSubscribeRequest st (some ch1) roomP passP l).1
        = subAccepted (handleSubscribeRequest st (some ch2) roomP passP l).1)
    ∧ (∀ (st : ServerState) (roomP passP : Option String) (l : Nat) (ch : String),
        ch ≠ "" → alistGet st.roomPasscodes (subRoom roomP) = none →
        (handleSubscribeRequest st (some ch) roomP passP l).1 = .streamOpened ch)
    ∧ alistGet stSec.roomPasscodes "r1" = some "secret"
    ∧ alistGet stSec.roomPasscodes "r2" = none
    ∧ (handleSubscribeRequest stSec (some "r1:english") (some "r2") none 7).1
        = .streamOpened "r1:english"
    ∧ channelName "r1" "English" = "r1:english"
    ∧ (handleTranslateRequest cfgA svcsOk
          (handleSubscribeRequest stSec (some "r1:english") (some "r2") none 7).2
          reqPub).2.1.deliveries
        = [(7, .ready "r1:english"), (7, .translation "r1" "English" "hi" "hi" none)] := by
  refine ⟨?_, ?_, by decide, by decide, by decide, by decide, by decide⟩
  · intro st roomP passP l ch1 ch2 h1 h2
    simp only [handleSubscribeRequest, Option.getD_some]
    rw [if_neg h1, if_neg h2]
    by_cases hc : (alistGet st.roomPasscodes (subRoom roomP)).getD "" ≠ "" ∧
        (alistGet st.roomPasscodes (subRoom roomP)).getD "" ≠ jsTrim (passP.getD "")
    · rw [if_pos hc, if_pos hc]
    · rw [if_neg hc, if_neg hc]
      rfl
  · intro st roomP passP l ch hch hnone
    simp [handleSubscribeRequest, hch, hnone]

/-- The system-message content of the first message of a chat request,
used by test services to tell the per-language branches apart. -/
def headContent (msgs : List Msg) : String :=
  (msgs.headD ⟨"", ""⟩).content

/-- Services whose chat endpoint answers `hola` for the Spanish branch
and `hi` otherwise, and whose speech synthesis fails exactly on
`hola`. -/
def svcsC3 : Services :=
  ⟨.ok "hello there",
   fun msgs =>
     .ok ⟨some (if strIncludes (headContent msgs) "Spanish" then "hola" else "hi"), none⟩,
   fun t => if t = "hola" then .error "TTS boom" else .ok "QUJD"⟩

/-- A state with one healthy listener (id 3) on channel `r1:english`. -/
def stC3 : ServerState := ⟨[], [("r1:english", [3])], ⟨0, 0, 0⟩, [], []⟩

/-- A submit to room `r1` requesting audio output for English and
Spanish. -/
def reqC3 : TranslateReq :=
  ⟨[], some "English,Spanish", none, some "audio", some "r1", some "abc", none, [1]⟩

/-- C3 counterexample: with English and Spanish requested in audio mode
and speech synthesis failing only on the Spanish branch, the whole
request fails with a 500 and the caller receives no results at all —
even though the English branch completed (its translation event was
broadcast to the channel listener). The completed English result is
not returned to the caller. -/
theorem C3_counterexample :
    (handleTranslateRequest cfgA svcsC3 stC3 reqC3).1 = .error 500 "TTS boom"
    ∧ (3, Event.translation "r1" "English" "hi" "hi" (some "QUJD"))
        ∈ (handleTranslateRequest cfgA svcsC3 stC3 reqC3).2.1.deliveries
    ∧ respResults (handleTranslateRequest cfgA svcsC3 stC3 reqC3).1 = none := by
  exact ⟨by decide, by decide, by decide⟩

/-- C3 (amended): the fan-out aggregation is fail-fast — when any
language branch fails (in particular when its speech synthesis fails),
the submit handler responds with a 500 carrying that branch's error and
returns no results to the caller; completed branches are visible only
through their already-performed channel broadcasts. -/
theorem C3_branch_failure_fails_request (cfg : Config) (svcs : Services)
    (st : ServerState) (req : TranslateReq) (rooms1 : List (String × String))
    (raw transcript : String) (rlog : List (List Msg)) (e : String)
    (hkey : cfg.apiKey = true)
    (hgate : passcodeGate st.roomPasscodes (reqRoom req) (reqPasscode req) = .ok rooms1)
    (haudio : req.audio ≠ [])
    (htr : svcs.transcribe = .ok raw)
    (href : refineTranscript svcs.chat raw (reqSourceLang req) = (.ok transcript, rlog))
    (herr : firstError (runBranches svcs (reqRoom req) transcript (reqContext req)
        (wantsAudio req) (parseTargetLanguages req.targetLang req.targetLangs)
        { st with roomPasscodes := rooms1 }).1 = some e) :
    (handleTranslateRequest cfg svcs st req).1 = .error 500 e
    ∧ respResults (handleTranslateRequest cfg svcs st req).1 = none := by
  have haudio' : req.audio.isEmpty = false := by
    cases h : req.audio with
    | nil => exact absurd h haudio
    | cons a l => rfl
  rcases hr : runBranches svcs (reqRoom req) transcript (reqContext req)
      (wantsAudio req) (parseTargetLanguages req.targetLang req.targetLangs)
      { st with roomPasscodes := rooms1 } with ⟨brs, st2, calls⟩
  rw [hr] at herr
  simp only at herr
  constructor
  · simp [handleTranslateRequest, hkey, hgate, haudio', translatePipeline, htr, href,
      hr, herr]
  · simp [handleTranslateRequest, hkey, hgate, haudio', translatePipeline, htr, href,
      hr, herr, respResults]

/-- The deduplication the claim describes, in the claim's own words:
one representative per case-insensitively-equal group of requested
languages. Defined only to compare the code's behaviour against the
claim. -/
def caseInsensitiveDedup (langs : List String) : List String :=
  jsSetDedup (langs.map jsToLower)

/-- A submit repeating the target language in two spellings,
`English` and `english`. -/
def reqC4 : TranslateReq :=
  ⟨["English", "english"], none, none, none, some "r1", some "abc", none, [1]⟩

/-- C4 counterexample: requesting `English` and `english` yields two
requested languages after the code's deduplication and two results in
the response, although case-insensitive deduplication would leave only
one — the code deduplicates by exact string equality, not
case-insensitively. -/
theorem C4_counterexample :
    parseTargetLanguages ["English", "english"] none = ["English", "english"]
    ∧ (caseInsensitiveDedup ["English", "english"]).length = 1
    ∧ respResults (handleTranslateRequest cfgA svcsOk st0 reqC4).1
        = some [⟨"English", "hi", none⟩, ⟨"english", "hi", none⟩] := by
  exact ⟨by decide, by decide, by decide⟩

/-- A successful submit returns one result per parsed target language,
in request order (shared helper for the fan-out cardinality claim). -/
theorem handle_success_results (cfg : Config) (svcs : Services) (st : ServerState)
    (req : TranslateReq) (t : String) (results : List LangResult) (u : Usage) (c : ℚ)
    (m : String)
    (h : (handleTranslateRequest cfg svcs st req).1 = .success t results u c m) :
    results.map LangResult.language = parseTargetLanguages req.targetLang req.targetLangs := by
  unfold handleTranslateRequest at h
  split at h
  · simp at h
  · split at h
    · simp at h
    · simp at h
    · split at h
      · simp at h
      · unfold translatePipeline at h
        split at h
        · simp at h
        · split at h
          · simp at h
          · rename_i transcript rlog heqr
            split at h
            rename_i branchResults st2 fanCalls heq
            split at h
            · simp at h
            · rename_i hfe
              simp only [TResponse.success.injEq] at h
              rw [← h.2.1]
              exact runBranches_languages_of_eq _ _ _ _ _ _ _ _ _ _ heq hfe

/-- C4 (amended to the code's exact-string deduplication): the parsed
target-language list — fed by repeated `targetLang` parameters and the
comma-joined `targetLangs` parameter — is deduplicated by exact string
equality (so `English` and `english` stay distinct), never empty,
defaults to `["English"]` when no language is supplied, and every
successful submit returns exactly one result per parsed language, in
order. -/
theorem C4_exact_dedup_results (cfg : Config) (svcs : Services) (st : ServerState)
    (req : TranslateReq) :
    (parseTargetLanguages req.targetLang req.targetLangs).Nodup
    ∧ parseTargetLanguages req.targetLang req.targetLangs ≠ []
    ∧ parseTargetLanguages [] none = ["English"]
    ∧ (∀ t results u c m,
        (handleTranslateRequest cfg svcs st req).1 = .success t results u c m →
        results.map LangResult.language
          = parseTargetLanguages req.targetLang req.targetLangs) :=
  ⟨parseTargetLanguages_nodup _ _, parseTargetLanguages_ne_nil _ _, by decide,
   fun t results u c m h => handle_success_results cfg svcs st req t results u c m h⟩

/-- Services whose refinement (chat) endpoint fails with a non-2xx
response. -/
def svcsC7 : Services :=
  ⟨.ok "hello there", fun _ => .error "refine boom", fun _ => .ok "QUJD"⟩

/-- A plain submit to room `r1` used with the failing refinement
services. -/
def reqC7 : TranslateReq :=
  ⟨[], none, none, none, some "r1", some "abc", none, [1]⟩

/-- C7 counterexample: when the refinement call fails (non-2xx), the
code does not fall back to the raw transcript — `refineTranscript`
propagates the exception and the whole submit fails with a 500. -/
theorem C7_counterexample :
    refineTranscript svcsC7.chat "hello there" ""
      = (.error "refine boom", [refineMessages "hello there" ""])
    ∧ (refineTranscript svcsC7.chat "hello there" "").1 ≠ .ok "hello there"
    ∧ (handleTranslateRequest cfgA svcsC7 st0 reqC7).1 = .error 500 "refine boom" := by
  exact ⟨by decide, by decide, by decide⟩

/-- C7 (amended): refinement is skipped (no call, raw transcript used
as-is) when the raw transcript has fewer than 2 trimmed characters;
when the refinement call returns, an empty or missing content falls
back to the raw transcript, so the refined transcript is never empty
when the raw transcript is non-empty; but a refinement service failure
propagates as an error instead of falling back. -/
theorem C7_refine_fallback (chatSvc : List Msg → Except String ChatCompletion)
    (raw lang : String) :
    ((jsTrim raw).length < 2 → refineTranscript chatSvc raw lang = (.ok raw, []))
    ∧ (∀ e, ¬ (jsTrim raw).length < 2 →
        chatSvc (refineMessages raw lang) = .error e →
        refineTranscript chatSvc raw lang = (.error e, [refineMessages raw lang]))
    ∧ (∀ comp, ¬ (jsTrim raw).length < 2 →
        chatSvc (refineMessages raw lang) = .ok comp →
        refineTranscript chatSvc raw lang
            = (.ok (if jsTrim (comp.content.getD "") = "" then raw
                    else jsTrim (comp.content.getD "")),
               [refineMessages raw lang])
          ∧ (if jsTrim (comp.content.getD "") = "" then raw
             else jsTrim (comp.content.getD "")) ≠ "") := by
  refine ⟨?_, ?_, ?_⟩
  · intro hlt
    unfold refineTranscript
    rw [if_pos (Or.inr hlt)]
  · intro e hge hsvc
    have hcond : ¬ (raw = "" ∨ (jsTrim raw).length < 2) := by
      rintro (rfl | h)
      · exact hge (by decide)
      · exact hge h
    unfold refineTranscript
    rw [if_neg hcond, hsvc]
  · intro comp hge hsvc
    have hcond : ¬ (raw = "" ∨ (jsTrim raw).length < 2) := by
      rintro (rfl | h)
      · exact hge (by decide)
      · exact hge h
    have hraw : raw ≠ "" := fun h => hcond (Or.inl h)
    constructor
    · unfold refineTranscript
      rw [if_neg hcond, hsvc]
    · split
      · exact hraw
      · rename_i hne
        exact hne

/-- A state with a dead listener (id 1) and a healthy listener (id 2)
registered on channel `r1:english`. -/
def stC8 : ServerState := ⟨[], [("r1:english", [1, 2])], ⟨0, 0, 0⟩, [], [1]⟩

/-- The event published in the `broadcast` counterexample. -/
def evC8 : Event := .translation "r1" "English" "hi" "hola" none

/-- C8 counterexample: publishing on a channel with a dead listener
(id 1) and a healthy one (id 2) delivers to the healthy listener but
does NOT remove the failed listener from the channel — `broadcast`
never mutates the subscriber registry, so the claimed
removal-on-write-failure does not happen. -/
theorem C8_counterexample :
    stC8.broken = [1]
    ∧ (broadcast "r1:english" evC8 stC8).subscribers = [("r1:english", [1, 2])]
    ∧ (broadcast "r1:english" evC8 stC8).deliveries = [(2, evC8)] := by
  exact ⟨rfl, by decide, by decide⟩

/-- C8 (amended): `broadcast` is a no-op on a channel with no listener
entry; it writes the one serialised event to every currently-registered
listener whose connection is alive, and a failed write to one listener
does not prevent delivery to the remaining listeners; but `broadcast`
never unregisters anyone — the subscriber registry is unchanged, and
removal happens only through the connection-close cleanup
(`removeSubscriber`). -/
theorem C8_publish_isolation (st : ServerState) (channel : String) (payload : Event) :
    (alistGet st.subscribers channel = none → broadcast channel payload st = st)
    ∧ (broadcast channel payload st).subscribers = st.subscribers
    ∧ (∀ set, alistGet st.subscribers channel = some set →
        (broadcast channel payload st).deliveries
          = st.deliveries
            ++ (set.filter (fun l => !st.broken.contains l)).map (fun l => (l, payload)))
    ∧ (∀ set l, alistGet st.subscribers channel = some set → l ∈ set →
        st.broken.contains l = false →
        (l, payload) ∈ (broadcast channel payload st).deliveries) := by
  refine ⟨?_, broadcast_subscribers _ _ _, ?_, ?_⟩
  · intro h
    unfold broadcast
    rw [h]
  · intro set h
    unfold broadcast
    rw [h]
  · intro set l h hmem hlive
    unfold broadcast
    rw [h]
    refine List.mem_append_right _ ?_
    refine List.mem_map_of_mem _ ?_
    rw [List.mem_filter]
    exact ⟨hmem, by rw [hlive]; rfl⟩

/-- The cost formula exactly as the spec's words state it — without the
`toFixed(6)` rounding the code applies. Defined to compare the code
against the claim. -/
def specExactCost (rates : ℚ × ℚ) (u : Usage) : ℚ :=
  (u.prompt_tokens : ℚ) / 1000 * rates.1 + (u.completion_tokens : ℚ) / 1000 * rates.2

/-- C9 counterexample: with 1 prompt token and 0 completion tokens on
the priced model, the exact formula gives 0.00000015 but the code
returns 0 — `estimateCost` rounds to six decimal places, so it does not
equal the unrounded formula in general. -/
theorem C9_counterexample :
    estimateCost "gpt-4o-mini" ⟨1, 0, 1⟩ = 0
    ∧ specExactCost (0.00015, 0.0006) ⟨1, 0, 1⟩ ≠ 0
    ∧ alistGet OPENAI_PRICING "gpt-4o-mini" = some (0.00015, 0.0006) := by
  refine ⟨?_, ?_, rfl⟩
  · have hc : estimateCost "gpt-4o-mini" ⟨1, 0, 1⟩
        = toFixed6 ((1 : ℚ) / 1000 * 0.00015 + (0 : ℚ) / 1000 * 0.0006) := by
      simp [estimateCost, show alistGet OPENAI_PRICING "gpt-4o-mini"
        = some (0.00015, 0.0006) from rfl]
    rw [hc]
    unfold toFixed6
    have h1 : ((1 : ℚ) / 1000 * 0.00015 + (0 : ℚ) / 1000 * 0.0006) * 1000000
        = (0.15 : ℚ) := by norm_num
    have h2 : round ((0.15 : ℚ)) = 0 := by
      rw [round_eq]
      exact Int.floor_eq_iff.mpr (by norm_num)
    rw [h1, h2]
    norm_num
  · norm_num [specExactCost]

/-- C9 (amended): `estimateCost` computes the spec's formula and then
rounds it to six decimal places; it therefore equals the exact formula
whenever the exact value is an integer multiple of 10⁻⁶; an unknown
translate model costs 0 (not an error); and the claim's concrete
instance (1000 prompt and 1000 completion tokens at rates
0.00015/0.0006) yields exactly 0.00075. -/
theorem C9_cost_estimate (u : Usage) :
    (∀ model, alistGet OPENAI_PRICING model = none → estimateCost model u = 0)
    ∧ (∀ model rates, alistGet OPENAI_PRICING model = some rates →
        ∀ z : ℤ, specExactCost rates u = (z : ℚ) / 1000000 →
        estimateCost model u = specExactCost rates u)
    ∧ estimateCost "gpt-4o-mini" ⟨1000, 1000, 2000⟩ = 0.00075
    ∧ (0.00075 : ℚ) = specExactCost (0.00015, 0.0006) ⟨1000, 1000, 2000⟩ := by
  refine ⟨?_, ?_, ?_, by norm_num [specExactCost]⟩
  · intro model h
    simp only [estimateCost, h, Option.getD_none, toFixed6]
    norm_num
  · intro model rates h z hz
    have hcost : estimateCost model u = toFixed6 (specExactCost rates u) := by
      simp only [estimateCost, h, Option.getD_some, specExactCost]
    rw [hcost, hz]
    unfold toFixed6
    rw [div_mul_cancel₀ (z : ℚ) (by norm_num : (1000000 : ℚ) ≠ 0), round_intCast]
  · have hc : estimateCost "gpt-4o-mini" ⟨1000, 1000, 2000⟩
        = toFixed6 ((1000 : ℚ) / 1000 * 0.00015 + (1000 : ℚ) / 1000 * 0.0006) := by
      simp [estimateCost, show alistGet OPENAI_PRICING "gpt-4o-mini"
        = some (0.00015, 0.0006) from rfl]
    rw [hc]
    unfold toFixed6
    have h1 : ((1000 : ℚ) / 1000 * 0.00015 + (1000 : ℚ) / 1000 * 0.0006) * 1000000
        = ((750 : ℤ) : ℚ) := by norm_num
    rw [h1, round_intCast]
    norm_num

/-! ## Witnesses: the theorems above applied at concrete inputs -/

/-- A submit on `r1` presenting the different passcode `b`. -/
def reqW2 : TranslateReq :=
  ⟨[], none, none, none, some "r1", some "b", none, [1]⟩

/-- A submit with no passcode parameter at all. -/
def reqMissingPass : TranslateReq :=
  ⟨[], none, none, none, some "r1", none, none, [1]⟩

/-- A submit with a fresh passcode but an empty body. -/
def reqEmptyAudio : TranslateReq :=
  ⟨[], none, none, none, some "r1", some "abc", none, []⟩

/-- A submit on `r1` with passcode `zzz`, different from `abc`. -/
def reqOther : TranslateReq :=
  ⟨[], none, none, none, some "r1", some "zzz", none, [1]⟩

/-- The state `reqEmptyAudio` leaves behind: `abc` bound to `r1` even
though the request itself was rejected. -/
def stAbc : ServerState :=
  { st0 with
      roomPasscodes := mapSet (reqRoom reqEmptyAudio) (reqPasscode reqEmptyAudio)
        st0.roomPasscodes }

theorem C1_witness :
    handleTranslateRequest cfgA svcsOk stBound reqW2
      = (.error 403 "Room passcode mismatch", stBound, [])
    ∧ (handleTranslateRequest cfgA svcsOk stBound reqBind).1
        ≠ .error 403 "Room passcode mismatch"
    ∧ ((handleTranslateRequest cfgA svcsOk stBound reqBind).2.1).roomPasscodes
        = stBound.roomPasscodes := by
  have h := C1_trimmed_first_writer_wins cfgA svcsOk svcsOk stBound reqW2 reqBind "r1" "a"
    rfl (by decide) (by decide)
  have h2 := h.2 "a" rfl rfl rfl
  exact ⟨h.1 "b" rfl rfl (by decide) (by decide), h2.2.1, h2.2.2.2⟩

theorem C2_witness :
    subAccepted (handleSubscribeRequest stSec (some "chanA") (some "r9") none 5).1
      = subAccepted (handleSubscribeRequest stSec (some "chanB") (some "r9") none 5).1
    ∧ (handleSubscribeRequest stSec (some "chanA") (some "r9") none 5).1
        = .streamOpened "chanA" := by
  have h := C2_subscribe_ignores_channel
  exact ⟨h.1 stSec (some "r9") none 5 "chanA" "chanB" (by decide) (by decide),
         h.2.1 stSec (some "r9") none 5 "chanA" (by decide) (by decide)⟩

theorem C3_witness :
    (handleTranslateRequest cfgA svcsC3 stC3 reqC3).1 = .error 500 "TTS boom"
    ∧ respResults (handleTranslateRequest cfgA svcsC3 stC3 reqC3).1 = none :=
  C3_branch_failure_fails_request cfgA svcsC3 stC3 reqC3 [("r1", "abc")]
    "hello there" "hi" [refineMessages "hello there" ""] "TTS boom"
    rfl (by decide) (by decide) rfl (by decide) (by decide)

theorem C4_witness :
    ([⟨"English", "hi", none⟩, ⟨"english", "hi", none⟩] : List LangResult).map
        LangResult.language
      = parseTargetLanguages reqC4.targetLang reqC4.targetLangs :=
  (C4_exact_dedup_results cfgA svcsOk st0 reqC4).2.2.2 "hi"
    [⟨"English", "hi", none⟩, ⟨"english", "hi", none⟩] ⟨0, 0, 0⟩
    (estimateCost "gpt-4o-mini" ⟨0, 0, 0⟩) "gpt-4o-mini" rfl

theorem C5_witness :
    handleTranslateRequest cfgA svcsOk st0 reqMissingPass
      = (.error 400 "Missing passcode", st0, [])
    ∧ handleTranslateRequest cfgA svcsOk stBound reqW2
        = (.error 403 "Room passcode mismatch", stBound, [])
    ∧ handleTranslateRequest cfgA svcsOk st0 reqEmptyAudio
        = (.error 400 "No audio content received.",
           { st0 with roomPasscodes := [("r1", "abc")] }, []) := by
  refine ⟨?_, ?_, ?_⟩
  · exact (C5_validation_rejects_without_calls cfgA svcsOk st0 reqMissingPass rfl).1
      (by decide)
  · exact (C5_validation_rejects_without_calls cfgA svcsOk stBound reqW2 rfl).2.1 "a"
      (by decide) (by decide) (by decide) (by decide)
  · exact (C5_validation_rejects_without_calls cfgA svcsOk st0 reqEmptyAudio rfl).2.2
      [("r1", "abc")] (by decide) rfl

/-- A chat service that answers the first translation attempt with an
empty content and the strengthened retry with `salut`. -/
def chatW : List Msg → Except String ChatCompletion :=
  fun msgs =>
    if msgs = translateMessages "bonjour" "French" "" then .ok ⟨some "", none⟩
    else .ok ⟨some "salut", none⟩

theorem C6_witness :
    (translateText chatW "bonjour" "French" "" ⟨0, 0, 0⟩).2
      = [translateMessages "bonjour" "French" "",
         strengthenMessages (translateMessages "bonjour" "French" "")]
    ∧ ∃ u2, (translateText chatW "bonjour" "French" "" ⟨0, 0, 0⟩).1
        = .ok ("salut", u2) := by
  have h := (C6_translate_retry_policy chatW "bonjour" "French" "" ⟨0, 0, 0⟩).2.2.1
    ⟨some "", none⟩ ⟨some "salut", none⟩ (by decide) (by decide) (by decide)
  refine ⟨h.1, ?_⟩
  obtain ⟨u2, hu⟩ := h.2
  have hex : extractContent ⟨some "salut", none⟩ = "salut" := by decide
  exact ⟨u2, by rw [hu, hex]⟩

theorem C7_witness :
    refineTranscript (fun _ => .ok (⟨some "fixed", none⟩ : ChatCompletion)) "x" "en"
      = (.ok "x", [])
    ∧ refineTranscript (fun _ => .error "boom") "hi there" "en"
        = (.error "boom", [refineMessages "hi there" "en"])
    ∧ refineTranscript (fun _ => .ok (⟨some " ", none⟩ : ChatCompletion)) "hi there" "en"
        = (.ok "hi there", [refineMessages "hi there" "en"]) := by
  refine ⟨?_, ?_, ?_⟩
  · exact (C7_refine_fallback _ "x" "en").1 (by decide)
  · exact (C7_refine_fallback _ "hi there" "en").2.1 "boom" (by decide) rfl
  · have h := (C7_refine_fallback (fun _ => .ok (⟨some " ", none⟩ : ChatCompletion))
      "hi there" "en").2.2 ⟨some " ", none⟩ (by decide) rfl
    rw [h.1]
    decide

theorem C8_witness :
    (broadcast "r1:english" evC8 stC8).deliveries = stC8.deliveries ++ [(2, evC8)]
    ∧ (2, evC8) ∈ (broadcast "r1:english" evC8 stC8).deliveries
    ∧ broadcast "nochannel" evC8 stC8 = stC8 := by
  have h := C8_publish_isolation stC8 "r1:english" evC8
  refine ⟨?_, ?_, ?_⟩
  · rw [h.2.2.1 [1, 2] (by decide)]
    decide
  · exact h.2.2.2 [1, 2] 2 (by decide) (by decide) (by decide)
  · exact (C8_publish_isolation stC8 "nochannel" evC8).1 (by decide)

theorem C9_witness :
    estimateCost "unknown-model" ⟨5, 7, 12⟩ = 0
    ∧ estimateCost "gpt-4o-mini" ⟨1000, 1000, 2000⟩
        = specExactCost (0.00015, 0.0006) ⟨1000, 1000, 2000⟩ := by
  refine ⟨?_, ?_⟩
  · exact (C9_cost_estimate ⟨5, 7, 12⟩).1 "unknown-model" rfl
  · exact (C9_cost_estimate ⟨1000, 1000, 2000⟩).2.1 "gpt-4o-mini" (0.00015, 0.0006) rfl
      750 (by norm_num [specExactCost])

theorem C10_witness :
    handleTranslateRequest cfgA svcsOk st0 reqEmptyAudio
      = (.error 400 "No audio content received.", stAbc, [])
    ∧ handleTranslateRequest cfgA svcsOk stAbc reqOther
      = (.error 403 "Room passcode mismatch", stAbc, []) := by
  have h := C10_failed_validation_still_binds cfgA svcsOk svcsOk st0 reqEmptyAudio reqOther
    rfl (by decide) (by decide) rfl
  exact ⟨h.1, h.2 (by decide) (by decide) (by decide)⟩

end RT
